import Mathlib

/-!
Verification of the Barkus barcode detection / page-grouping engine.

The definitions below are a shallow embedding of the Python modules
`barkus_modules/barcode_detector.py` and `barkus_modules/pdf_processor.py`.
Python strings are modelled as `List Char`, Python dicts (which iterate in
insertion order) as association lists, and the external image decoder as an
abstract per-attempt outcome.

Logging goes through the `VerbosityHandler` collaborator
(`barkus_modules/logging_handler.py`), which defines only `info`, `warning`,
`error` and `close`.  Calls to those methods have no effect on returned values
and are omitted here.  The code however also calls `vh.debug(...)` in several
places (barcode_detector.py lines 181, 362, 447-449; pdf_processor.py lines
375, 390); since the class has no `debug` method and no `__getattr__`, every
such call raises `AttributeError` at runtime.  Those raises, and the `except`
branches that observe them, are modelled explicitly below wherever they are
reachable.
-/

namespace Barkus

/-- Python `str` modelled as a list of characters. -/
abbrev PyStr := List Char

/-- The `UNKNOWN` sentinel string used for a missing barcode field. -/
def UNKNOWN : PyStr := ['U', 'N', 'K', 'N', 'O', 'W', 'N']

/-- Python `str.strip()`: drop whitespace from both ends. -/
def pyStrip (s : PyStr) : PyStr :=
  ((s.dropWhile Char.isWhitespace).reverse.dropWhile Char.isWhitespace).reverse

/-- Python `str.upper()` restricted to the ASCII case fold used by the data. -/
def pyUpper (s : PyStr) : PyStr := s.map Char.toUpper

/-- Python `text.startswith('DO')`. -/
def startsWithDO : PyStr → Bool
  | 'D' :: 'O' :: _ => true
  | _ => false

/-- Method `BarcodeClassifier.is_delivery_number` from `barcode_detector.py`:
delivery numbers start with `DO` (case-insensitive) or with a digit. -/
def is_delivery_number (barcode_text : PyStr) : Bool :=
  if barcode_text = [] then false
  else
    match pyUpper (pyStrip barcode_text) with
    | [] => false
    | c :: rest => startsWithDO (c :: rest) || c.isDigit

/-- Blank test used on decoded texts: `not bc.text or not bc.text.strip()`. -/
def py_is_blank (t : PyStr) : Bool := t.isEmpty || (pyStrip t).isEmpty

/-- Enumeration `BarcodeDetectionStatus`. -/
inductive BarcodeDetectionStatus where
  | SUCCESS
  | NO_PATTERNS_FOUND
  | PATTERNS_UNREADABLE
  | PATTERNS_CORRUPTED
  | MULTIPLE_CONFLICTS
  | RETRY_EXHAUSTED
deriving DecidableEq, Repr

/-- Dataclass `BarcodeDetectionResult`. -/
structure BarcodeDetectionResult where
  delivery_number : Option PyStr := none
  customer_name : Option PyStr := none
  detection_status : BarcodeDetectionStatus := .NO_PATTERNS_FOUND
  patterns_found : Nat := 0
  readable_patterns : Nat := 0
  retry_count : Nat := 0
  error_details : Option PyStr := none
deriving DecidableEq, Repr

instance : Inhabited BarcodeDetectionResult := ⟨{}⟩

/-- Method `BarcodeDetectionResult.has_complete_barcodes`. -/
def BarcodeDetectionResult.has_complete_barcodes (r : BarcodeDetectionResult) : Bool :=
  r.delivery_number.isSome && r.customer_name.isSome &&
    (r.detection_status = BarcodeDetectionStatus.SUCCESS)

/-- Method `BarcodeDetectionResult.has_any_barcode`. -/
def BarcodeDetectionResult.has_any_barcode (r : BarcodeDetectionResult) : Bool :=
  r.delivery_number.isSome || r.customer_name.isSome

/-- Method `BarcodeDetectionResult.needs_retry`. -/
def BarcodeDetectionResult.needs_retry (r : BarcodeDetectionResult) : Bool :=
  r.detection_status = BarcodeDetectionStatus.PATTERNS_UNREADABLE ||
  r.detection_status = BarcodeDetectionStatus.PATTERNS_CORRUPTED

/-- Claim C7: `is_delivery_number` is total and returns `true` exactly when the
input is non-empty after trimming and the trimmed, upper-cased text starts with
`DO` or its first character is a decimal digit. -/
theorem is_delivery_number_iff (t : PyStr) :
    is_delivery_number t = true ↔
      pyStrip t ≠ [] ∧
        (startsWithDO (pyUpper (pyStrip t)) = true ∨
          ∃ c rest, pyUpper (pyStrip t) = c :: rest ∧ c.isDigit = true) := by
  unfold is_delivery_number
  by_cases ht : t = []
  · subst ht
    simp [pyStrip, pyUpper]
  · simp only [ht, if_false]
    cases hu : pyUpper (pyStrip t) with
    | nil =>
      have hs : pyStrip t = [] := by
        have := congrArg List.length hu
        simpa [pyUpper] using this
      simp [hs, hu]
    | cons c rest =>
      have hs : pyStrip t ≠ [] := by
        intro h
        rw [h] at hu
        simp [pyUpper] at hu
      constructor
      · intro h
        refine ⟨hs, ?_⟩
        rcases Bool.or_eq_true_iff.mp h with h1 | h1
        · exact Or.inl (by simpa [hu] using h1)
        · exact Or.inr ⟨c, rest, rfl, h1⟩
      · rintro ⟨-, h1 | ⟨c', rest', heq, hdig⟩⟩
        · exact Bool.or_eq_true_iff.mpr (Or.inl (by simpa [hu] using h1))
        · injection heq with h1 h2
          subst h1
          exact Bool.or_eq_true_iff.mpr (Or.inr hdig)

/-- Outcome of the external decoder plus the contour heuristic of
`_detect_barcode_patterns` for one (possibly enhanced) page image:
`region_candidates` is the heuristic count of barcode-like regions, `texts` is
the list of decoded strings (`bc.text`) in decode order. -/
structure DecoderOutput where
  region_candidates : Nat
  texts : List PyStr
deriving DecidableEq, Repr

/-- A page-image read: either a decoder outcome, or an exception raised while
decoding (caught by the `except` branch of `_detect_barcodes_from_image`). -/
inductive PageRead where
  | ok : DecoderOutput → PageRead
  | err : PyStr → PageRead

/-- The message stored in `error_details` for corrupted (blank) barcodes:
`f"Found {n} corrupted barcodes"`. -/
def corrupted_error_message (n : Nat) : PyStr :=
  ("Found " ++ toString n ++ " corrupted barcodes").data

/-- Text of the `AttributeError` raised by every `vh.debug(...)` call:
`VerbosityHandler` defines no `debug` method.  This is the `str(e)` the
`except` handlers store in `error_details`. -/
def debug_attribute_error : PyStr :=
  "'VerbosityHandler' object has no attribute 'debug'".data

/-- Method `BarcodeDetector._detect_barcodes_from_image`: classify one attempt
and its decode into a `BarcodeDetectionResult`.  `patterns_found` is
`max(readable_count, region_candidates)` as computed by
`_detect_barcode_patterns`. -/
def detect_barcodes_from_image (pr : PageRead) : BarcodeDetectionResult :=
  match pr with
  | .err e =>
      { delivery_number := none, customer_name := none,
        detection_status := .PATTERNS_CORRUPTED, patterns_found := 0,
        readable_patterns := 0, retry_count := 0, error_details := some e }
  | .ok d =>
      let total_patterns := max d.texts.length d.region_candidates
      if total_patterns = 0 then
        -- The source sets `NO_PATTERNS_FOUND` and then calls `vh.debug`
        -- (line 181), which raises `AttributeError`; the `except` at line 237
        -- returns a fresh result: `PATTERNS_CORRUPTED` with the exception
        -- text, all other fields at their dataclass defaults.  The function
        -- can therefore never return a `NO_PATTERNS_FOUND` result.
        { delivery_number := none, customer_name := none,
          detection_status := .PATTERNS_CORRUPTED, patterns_found := 0,
          readable_patterns := 0, retry_count := 0,
          error_details := some debug_attribute_error }
      else if d.texts.length = 0 then
        { delivery_number := none, customer_name := none,
          detection_status := .PATTERNS_UNREADABLE, patterns_found := total_patterns,
          readable_patterns := d.texts.length, retry_count := 0, error_details := none }
      else
        let invalid_barcodes := d.texts.filter py_is_blank
        let delivery_barcodes := d.texts.filter (fun t => !py_is_blank t && is_delivery_number t)
        let customer_barcodes := d.texts.filter (fun t => !py_is_blank t && !is_delivery_number t)
        let r : BarcodeDetectionResult :=
          { delivery_number := delivery_barcodes.head?,
            customer_name := customer_barcodes.head?,
            detection_status :=
              if invalid_barcodes.isEmpty then .NO_PATTERNS_FOUND else .PATTERNS_CORRUPTED,
            patterns_found := total_patterns,
            readable_patterns := d.texts.length,
            retry_count := 0,
            error_details :=
              if invalid_barcodes.isEmpty then none
              else some (corrupted_error_message invalid_barcodes.length) }
        if r.has_complete_barcodes then { r with detection_status := .SUCCESS }
        else if r.has_any_barcode then { r with detection_status := .SUCCESS }
        else r

/-- Status priority table used by `_is_better_result`. -/
def status_priority : BarcodeDetectionStatus → Nat
  | .SUCCESS => 5
  | .PATTERNS_CORRUPTED => 4
  | .PATTERNS_UNREADABLE => 3
  | .MULTIPLE_CONFLICTS => 2
  | .NO_PATTERNS_FOUND => 1
  | .RETRY_EXHAUSTED => 0

/-- Method `BarcodeDetector._is_better_result`. -/
def is_better_result (current previous : BarcodeDetectionResult) : Bool :=
  if current.has_complete_barcodes && !previous.has_complete_barcodes then true
  else if previous.has_complete_barcodes && !current.has_complete_barcodes then false
  else
    let current_count := (if current.delivery_number.isSome then 1 else 0) +
      (if current.customer_name.isSome then 1 else 0)
    let previous_count := (if previous.delivery_number.isSome then 1 else 0) +
      (if previous.customer_name.isSome then 1 else 0)
    if current_count > previous_count then true
    else if current_count < previous_count then false
    else status_priority current.detection_status > status_priority previous.detection_status

/-- Best-so-far update of `_detect_with_retry`:
`if best_result is None or self._is_better_result(result, best_result)`. -/
def better_or_keep (result : BarcodeDetectionResult) :
    Option BarcodeDetectionResult → BarcodeDetectionResult
  | none => result
  | some b => if is_better_result result b then result else b

/-- Post-loop code of `_detect_with_retry`: the `RETRY_EXHAUSTED` override
fires when the best result field `retry_count` reached `max_retries`. -/
def finalize_result (max_retries : Nat) (best : BarcodeDetectionResult) :
    BarcodeDetectionResult :=
  if max_retries ≤ best.retry_count then
    { best with detection_status := .RETRY_EXHAUSTED }
  else best

/-- The `for attempt in range(max_retries + 1)` loop of `_detect_with_retry`.
`page` gives the decode outcome for each enhancement level (attempt index).
The extra `fuel` argument only drives structural recursion; the loop is
entered with `fuel = max_retries + 1 - attempt` and recurses only under the
guard `attempt < max_retries`, so the `fuel = 0` branch is unreachable.
The `NO_PATTERNS_FOUND` branch (source lines 361-363) is dead code both in
the source and here: `_detect_barcodes_from_image` can never return that
status (its only `NO_PATTERNS_FOUND` path raises inside its own `try`, see
`detect_image_never_no_patterns`), so the `vh.debug` call of line 362, which
would itself raise, is never executed and no behavior depends on how this
branch is rendered. -/
def detect_loop (page : Nat → PageRead) (max_retries : Nat) :
    Nat → Nat → Option BarcodeDetectionResult → BarcodeDetectionResult
  | 0, _, best => finalize_result max_retries (better_or_keep default best)
  | fuel + 1, attempt, best =>
      let result := { detect_barcodes_from_image (page attempt) with retry_count := attempt }
      let best' := better_or_keep result best
      if result.has_complete_barcodes then result
      else if result.detection_status = .NO_PATTERNS_FOUND then
        finalize_result max_retries best'
      else if attempt < max_retries && result.needs_retry then
        detect_loop page max_retries fuel (attempt + 1) (some best')
      else finalize_result max_retries best'

/-- Method `BarcodeDetector._detect_with_retry`. -/
def detect_with_retry (page : Nat → PageRead) (max_retries : Nat) :
    BarcodeDetectionResult :=
  detect_loop page max_retries (max_retries + 1) 0 none

/-- Per-page input to `extract_barcodes_from_pdf`: a decodable page, or an
exception raised while converting or enhancing the page image (caught by the
outer `except` branch of the page loop). -/
inductive PageInput where
  | page : (Nat → PageRead) → PageInput
  | pageError : PyStr → PageInput

/-- Method `BarcodeDetector.extract_barcodes_from_pdf`: run the retry loop on
every page in order.  After storing the retry result, the page loop logs it:
pages with any barcode go through `vh.info` (which exists) and keep their
result; for a page with no barcode the `vh.debug` call at line 447 raises
`AttributeError`, and the `except` at line 451 overwrites the stored result
with a fresh `PATTERNS_CORRUPTED` result carrying the exception text.  A
page-level exception before detection is stored the same way, and processing
continues either way. -/
def extract_barcodes_from_pdf (pages : List PageInput) (max_retries : Nat) :
    List (Nat × BarcodeDetectionResult) :=
  pages.enum.map fun ip =>
    (ip.1,
      match ip.2 with
      | .page f =>
          let result := detect_with_retry f max_retries
          if result.has_any_barcode then result
          else
            { delivery_number := none, customer_name := none,
              detection_status := .PATTERNS_CORRUPTED, patterns_found := 0,
              readable_patterns := 0, retry_count := 0,
              error_details := some debug_attribute_error }
      | .pageError e =>
          { delivery_number := none, customer_name := none,
            detection_status := .PATTERNS_CORRUPTED, patterns_found := 0,
            readable_patterns := 0, retry_count := 0, error_details := some e })

/-- Updating `retry_count` touches no other field. -/
theorem retry_count_update_eta (r : BarcodeDetectionResult) (h : r.retry_count = 0) :
    { r with retry_count := 0 } = r := by
  cases r
  simp_all

/-- A single-attempt classification never yields `MULTIPLE_CONFLICTS` and
never yields `RETRY_EXHAUSTED`. -/
theorem detect_image_status_cases (pr : PageRead) :
    (detect_barcodes_from_image pr).detection_status ≠ .MULTIPLE_CONFLICTS ∧
    (detect_barcodes_from_image pr).detection_status ≠ .RETRY_EXHAUSTED := by
  cases pr with
  | err e => simp [detect_barcodes_from_image]
  | ok d =>
    simp only [detect_barcodes_from_image]
    split_ifs <;> simp_all

/-- A single-attempt result carries `retry_count = 0`. -/
theorem detect_image_retry_count (pr : PageRead) :
    (detect_barcodes_from_image pr).retry_count = 0 := by
  cases pr with
  | err e => rfl
  | ok d =>
    simp only [detect_barcodes_from_image]
    split_ifs <;> rfl

/-- The head of a filtered list is the first element satisfying the test. -/
theorem filter_head?_eq_find? {α : Type} (p : α → Bool) (l : List α) :
    (l.filter p).head? = l.find? p := by
  induction l with
  | nil => rfl
  | cons a l ih =>
    by_cases h : p a = true <;> simp [List.filter_cons, List.find?_cons, h, ih]

/-- The `error_details` field produced by one attempt on a decoder outcome:
set exactly when blank entries were decoded, recording their count. -/
theorem detect_image_error_details (d : DecoderOutput) (hne : d.texts ≠ []) :
    (detect_barcodes_from_image (.ok d)).error_details =
      if (d.texts.filter py_is_blank).isEmpty then none
      else some (corrupted_error_message (d.texts.filter py_is_blank).length) := by
  have h1 : ¬ max d.texts.length d.region_candidates = 0 := by
    simp only [Nat.max_eq_zero_iff, List.length_eq_zero]
    intro h
    exact hne h.1
  have h2 : ¬ d.texts.length = 0 := by
    rw [List.length_eq_zero]
    exact hne
  simp only [detect_barcodes_from_image]
  rw [if_neg h1, if_neg h2]
  split_ifs <;> rfl

/-- The populated fields of one attempt are the heads of the delivery- and
customer-candidate lists. -/
theorem detect_image_fields (d : DecoderOutput) :
    (detect_barcodes_from_image (.ok d)).delivery_number =
      (d.texts.filter fun t => !py_is_blank t && is_delivery_number t).head? ∧
    (detect_barcodes_from_image (.ok d)).customer_name =
      (d.texts.filter fun t => !py_is_blank t && !is_delivery_number t).head? := by
  simp only [detect_barcodes_from_image]
  split_ifs with h1 h2 <;>
    first
      | · obtain ⟨hl, -⟩ := Nat.max_eq_zero_iff.mp h1
          rw [List.length_eq_zero] at hl
          simp [hl]
      | · rw [List.length_eq_zero] at h2
          simp [h2]
      | simp_all

/-- Value of `has_any_barcode` for one attempt, in terms of the candidate lists. -/
theorem detect_image_has_any (d : DecoderOutput) :
    (detect_barcodes_from_image (.ok d)).has_any_barcode =
      ((d.texts.filter fun t => !py_is_blank t && is_delivery_number t).head?.isSome ||
        (d.texts.filter fun t => !py_is_blank t && !is_delivery_number t).head?.isSome) := by
  rw [BarcodeDetectionResult.has_any_barcode, (detect_image_fields d).1,
    (detect_image_fields d).2]

/-- If any barcode field is populated, the single-attempt status is
`SUCCESS` (the "partial success" overwrite at the end of
`_detect_barcodes_from_image`). -/
theorem detect_image_any_success (pr : PageRead)
    (h : (detect_barcodes_from_image pr).has_any_barcode = true) :
    (detect_barcodes_from_image pr).detection_status = .SUCCESS := by
  cases pr with
  | err e => simp [detect_barcodes_from_image, BarcodeDetectionResult.has_any_barcode] at h
  | ok d =>
    rw [detect_image_has_any] at h
    simp only [detect_barcodes_from_image]
    split_ifs with h1 h2 h3 h4 h5 h6 h7
    · exfalso
      obtain ⟨hl, -⟩ := Nat.max_eq_zero_iff.mp h1
      rw [List.length_eq_zero] at hl
      rw [hl] at h
      simp at h
    · exfalso
      rw [List.length_eq_zero] at h2
      rw [h2] at h
      simp at h
    · rfl
    · rfl
    · exact absurd h h5
    · rfl
    · rfl
    · exact absurd h h7

/-- A single attempt can never produce a `NO_PATTERNS_FOUND` result: the only
branch of `_detect_barcodes_from_image` that sets it raises `AttributeError`
at its `vh.debug` call, and the `except` handler then returns
`PATTERNS_CORRUPTED`; in the classification branch a surviving default
`NO_PATTERNS_FOUND` status would require no valid barcode, but with every
decoded text non-blank some field is always populated and the status is
overwritten with `SUCCESS`. -/
theorem detect_image_never_no_patterns (pr : PageRead) :
    (detect_barcodes_from_image pr).detection_status ≠ .NO_PATTERNS_FOUND := by
  cases pr with
  | err e => simp [detect_barcodes_from_image]
  | ok d =>
    have hfields := detect_image_has_any d
    simp only [detect_barcodes_from_image] at hfields ⊢
    split_ifs at hfields ⊢ with h1 h2 h3 h4 h5 h6 h7
    · intro hcon
      cases hcon
    · intro hcon
      cases hcon
    · intro hcon
      cases hcon
    · intro hcon
      cases hcon
    · exfalso
      apply h5
      rw [hfields]
      have hne : d.texts ≠ [] := by
        intro h
        apply h2
        rw [h]
        rfl
      obtain ⟨t, ts, ht⟩ := List.exists_cons_of_ne_nil hne
      have htmem : t ∈ d.texts := by
        rw [ht]
        exact List.mem_cons_self _ _
      have hfilter : d.texts.filter py_is_blank = [] := by
        rcases hfe : d.texts.filter py_is_blank with _ | ⟨a, l⟩
        · rfl
        · rw [hfe] at h3
          simp at h3
      have hblank : py_is_blank t = false := by
        rw [Bool.eq_false_iff]
        intro hb
        have hmem : t ∈ d.texts.filter py_is_blank := List.mem_filter.mpr ⟨htmem, hb⟩
        rw [hfilter] at hmem
        simp at hmem
      by_cases hdel : is_delivery_number t = true
      · have hmem : t ∈ d.texts.filter fun x => !py_is_blank x && is_delivery_number x :=
          List.mem_filter.mpr ⟨htmem, by simp [hblank, hdel]⟩
        rcases hdf : d.texts.filter (fun x => !py_is_blank x && is_delivery_number x) with
          _ | _
        · rw [hdf] at hmem
          simp at hmem
        · simp [hdf]
      · have hmem : t ∈ d.texts.filter fun x => !py_is_blank x && !is_delivery_number x :=
          List.mem_filter.mpr ⟨htmem, by simp [hblank, hdel]⟩
        rcases hcf : d.texts.filter (fun x => !py_is_blank x && !is_delivery_number x) with
          _ | _
        · rw [hcf] at hmem
          simp at hmem
        · simp [hcf]
    · intro hcon
      cases hcon
    · intro hcon
      cases hcon
    · intro hcon
      cases hcon

def c1_input : PageRead := .ok ⟨0, [[' '], ['D', 'O', '1']]⟩

/-- Claim C1 counterexample: on a page whose decoder output is one blank
string `" "` and one valid string `"DO1"`, the attempt status is `SUCCESS`
(partial), not `PATTERNS_CORRUPTED`, and the result is not retryable. -/
theorem c1_status_not_corrupted :
    (detect_barcodes_from_image c1_input).detection_status ≠ .PATTERNS_CORRUPTED ∧
    (detect_barcodes_from_image c1_input).detection_status = .SUCCESS ∧
    (detect_barcodes_from_image c1_input).needs_retry = false := by decide

/-- Claim C1 (amended): a page whose decoder output contains a blank entry and
a valid non-blank entry classifies with status `SUCCESS` (partial success),
with `error_details` recording the corrupted-entry count, and is not
retryable. -/
theorem blank_plus_valid_is_partial_success (d : DecoderOutput)
    (hblank : ∃ t ∈ d.texts, py_is_blank t = true)
    (hvalid : ∃ t ∈ d.texts, py_is_blank t = false) :
    (detect_barcodes_from_image (.ok d)).detection_status = .SUCCESS ∧
    (detect_barcodes_from_image (.ok d)).error_details =
      some (corrupted_error_message (d.texts.filter py_is_blank).length) ∧
    (detect_barcodes_from_image (.ok d)).needs_retry = false := by
  obtain ⟨tb, htb, htbb⟩ := hblank
  obtain ⟨tv, htv, htvb⟩ := hvalid
  have hne : d.texts ≠ [] := List.ne_nil_of_mem htb
  have hlen : ¬ d.texts.length = 0 := by simpa [List.length_eq_zero] using hne
  have htotal : ¬ max d.texts.length d.region_candidates = 0 := by
    simp only [Nat.max_eq_zero_iff]
    omega
  have hinv : (d.texts.filter py_is_blank).isEmpty = false := by
    have : tb ∈ d.texts.filter py_is_blank := List.mem_filter.mpr ⟨htb, htbb⟩
    rcases h : d.texts.filter py_is_blank with _ | _
    · rw [h] at this
      simp at this
    · rfl
  have hany_r : (detect_barcodes_from_image (.ok d)).has_any_barcode = true := by
    rw [BarcodeDetectionResult.has_any_barcode, (detect_image_fields d).1,
      (detect_image_fields d).2]
    by_cases hdel : is_delivery_number tv = true
    · have hmem : tv ∈ d.texts.filter fun t => !py_is_blank t && is_delivery_number t :=
        List.mem_filter.mpr ⟨htv, by simp [htvb, hdel]⟩
      rcases h : d.texts.filter (fun t => !py_is_blank t && is_delivery_number t) with _ | _
      · rw [h] at hmem
        simp at hmem
      · simp [h]
    · have hmem : tv ∈ d.texts.filter fun t => !py_is_blank t && !is_delivery_number t :=
        List.mem_filter.mpr ⟨htv, by simp [htvb, hdel]⟩
      rcases h : d.texts.filter (fun t => !py_is_blank t && !is_delivery_number t) with _ | _
      · rw [h] at hmem
        simp at hmem
      · simp [h]
  have hstat := detect_image_any_success _ hany_r
  refine ⟨hstat, ?_, ?_⟩
  · rw [detect_image_error_details d hne, hinv]
    simp
  · simp [BarcodeDetectionResult.needs_retry, hstat]

/-- The best-so-far update returns either the new result or the old best. -/
theorem better_or_keep_cases (r : BarcodeDetectionResult)
    (ob : Option BarcodeDetectionResult) :
    better_or_keep r ob = r ∨ ∃ b, ob = some b ∧ better_or_keep r ob = b := by
  cases ob with
  | none => exact Or.inl rfl
  | some b =>
    by_cases h : is_better_result r b = true
    · exact Or.inl (by simp [better_or_keep, h])
    · exact Or.inr ⟨b, rfl, by simp [better_or_keep, h]⟩

/-- The post-loop override yields `RETRY_EXHAUSTED` exactly when the
`retry_count` of the best result reached `max_retries`. -/
theorem finalize_result_iff (max_retries : Nat) (b : BarcodeDetectionResult)
    (h : b.detection_status ≠ .RETRY_EXHAUSTED) :
    (finalize_result max_retries b).detection_status = .RETRY_EXHAUSTED ↔
      max_retries ≤ (finalize_result max_retries b).retry_count := by
  unfold finalize_result
  split_ifs with hle
  · exact iff_of_true rfl hle
  · exact iff_of_false h hle

/-- The override never introduces `MULTIPLE_CONFLICTS`. -/
theorem finalize_result_ne_mc (max_retries : Nat) (b : BarcodeDetectionResult)
    (h : b.detection_status ≠ .MULTIPLE_CONFLICTS) :
    (finalize_result max_retries b).detection_status ≠ .MULTIPLE_CONFLICTS := by
  unfold finalize_result
  split_ifs with hle
  · simp
  · exact h

def c3_page : Nat → PageRead := fun n =>
  if n = 0 then .ok ⟨0, [['D', 'O', '1']]⟩
  else .ok ⟨0, [['D', 'O', '1'], ['A', 'C', 'M', 'E']]⟩

/-- Claim C3 counterexample: the first attempt yields a partial result (only
the delivery number), attempts remain (`max_retries = 5`), and a second
attempt would even decode both barcodes — yet the loop stops after attempt 0
and returns the partial result. -/
theorem partial_result_not_retried :
    (detect_with_retry c3_page 5).retry_count = 0 ∧
    (detect_with_retry c3_page 5).customer_name = none ∧
    (detect_barcodes_from_image (c3_page 1)).has_complete_barcodes = true := by decide

/-- Claim C3 (amended): the retry loop also stops on a partial result.  If the
first attempt populates at least one field without being complete, the loop
returns the result of that attempt immediately (status `SUCCESS`, no retry), even
though attempts remain. -/
theorem partial_first_attempt_stops_loop (page : Nat → PageRead) (max_retries : Nat)
    (hmr : 0 < max_retries)
    (hany : (detect_barcodes_from_image (page 0)).has_any_barcode = true)
    (hnc : (detect_barcodes_from_image (page 0)).has_complete_barcodes = false) :
    detect_with_retry page max_retries = detect_barcodes_from_image (page 0) := by
  have hstat := detect_image_any_success _ hany
  have hrc := detect_image_retry_count (page 0)
  have hup := retry_count_update_eta _ hrc
  unfold detect_with_retry
  rw [detect_loop, hup]
  have h1 : ¬ ((detect_barcodes_from_image (page 0)).has_complete_barcodes = true) := by
    simp [hnc]
  have h2 : ¬ ((detect_barcodes_from_image (page 0)).detection_status =
      BarcodeDetectionStatus.NO_PATTERNS_FOUND) := by
    rw [hstat]
    intro hcon
    cases hcon
  have h3 : ¬ ((decide (0 < max_retries) &&
      (detect_barcodes_from_image (page 0)).needs_retry) = true) := by
    simp [BarcodeDetectionResult.needs_retry, hstat]
  rw [if_neg h1, if_neg h2, if_neg h3]
  show finalize_result max_retries (better_or_keep _ none) = _
  rw [better_or_keep]
  unfold finalize_result
  rw [if_neg (by rw [hrc]; omega)]

/-- Claim C3 witness: a concrete one-barcode page with retries remaining. -/
theorem partial_first_attempt_stops_loop_witness :
    detect_with_retry (fun _ => PageRead.ok ⟨0, [['D', 'O', '1']]⟩) 1 =
      detect_barcodes_from_image (PageRead.ok ⟨0, [['D', 'O', '1']]⟩) :=
  partial_first_attempt_stops_loop (fun _ => PageRead.ok ⟨0, [['D', 'O', '1']]⟩) 1
    (by decide) (by decide) (by decide)

def c4_page : Nat → PageRead := fun n =>
  if n = 0 then .ok ⟨1, [[' ']]⟩ else .ok ⟨1, []⟩

/-- Claim C4 counterexample: with `max_retries = 1` both attempts run and the
loop exhausts its attempts with no field found (attempt 0 corrupted, attempt 1
unreadable), yet the returned status is `PATTERNS_CORRUPTED`, not
`RETRY_EXHAUSTED`, because the best result was recorded on attempt 0. -/
theorem exhausted_without_override :
    (detect_with_retry c4_page 1).detection_status =
      BarcodeDetectionStatus.PATTERNS_CORRUPTED ∧
    (detect_with_retry c4_page 1).detection_status ≠
      BarcodeDetectionStatus.RETRY_EXHAUSTED ∧
    (detect_with_retry c4_page 1).delivery_number = none ∧
    (detect_with_retry c4_page 1).customer_name = none := by decide

/-- Loop invariant for the `RETRY_EXHAUSTED` override. -/
theorem detect_loop_exhausted_iff (page : Nat → PageRead) (max_retries : Nat) :
    ∀ (fuel attempt : Nat) (best : Option BarcodeDetectionResult),
      (∀ b, best = some b → b.has_complete_barcodes = false ∧
        b.detection_status ≠ BarcodeDetectionStatus.RETRY_EXHAUSTED) →
      (detect_loop page max_retries fuel attempt best).has_complete_barcodes = true ∨
      ((detect_loop page max_retries fuel attempt best).detection_status =
          BarcodeDetectionStatus.RETRY_EXHAUSTED ↔
        max_retries ≤ (detect_loop page max_retries fuel attempt best).retry_count) := by
  intro fuel
  induction fuel with
  | zero =>
    intro attempt best hbest
    rw [detect_loop]
    refine Or.inr (finalize_result_iff _ _ ?_)
    rcases better_or_keep_cases default best with h | ⟨b, hb, h⟩
    · rw [h]
      decide
    · rw [h]
      exact (hbest b hb).2
  | succ fuel ih =>
    intro attempt best hbest
    rw [detect_loop]
    simp only []
    split_ifs with h1 h2 h3
    · exact Or.inl h1
    · refine Or.inr (finalize_result_iff _ _ ?_)
      rcases better_or_keep_cases
          { detect_barcodes_from_image (page attempt) with retry_count := attempt } best with
        h | ⟨b, hb, h⟩
      · rw [h]
        exact (detect_image_status_cases (page attempt)).2
      · rw [h]
        exact (hbest b hb).2
    · refine ih (attempt + 1) _ ?_
      intro b hb
      rcases better_or_keep_cases
          { detect_barcodes_from_image (page attempt) with retry_count := attempt } best with
        h | ⟨b', hb', h⟩
      · rw [h] at hb
        cases hb
        exact ⟨by simpa using h1, (detect_image_status_cases (page attempt)).2⟩
      · rw [h] at hb
        obtain rfl := Option.some_injective _ hb
        exact hbest b' hb'
    · refine Or.inr (finalize_result_iff _ _ ?_)
      rcases better_or_keep_cases
          { detect_barcodes_from_image (page attempt) with retry_count := attempt } best with
        h | ⟨b, hb, h⟩
      · rw [h]
        exact (detect_image_status_cases (page attempt)).2
      · rw [h]
        exact (hbest b hb).2

/-- Claim C4 (amended): at the end of the retry loop, either the returned
result is complete, or its status is `RETRY_EXHAUSTED` exactly when the best
candidate recorded `retry_count` reached `max_retries` — i.e. when the best
candidate came from the final attempt.  Exhausting attempts with a best
candidate from an earlier attempt does not trigger the override. -/
theorem retry_exhausted_iff_best_from_last_attempt (page : Nat → PageRead)
    (max_retries : Nat) :
    (detect_with_retry page max_retries).has_complete_barcodes = true ∨
    ((detect_with_retry page max_retries).detection_status =
        BarcodeDetectionStatus.RETRY_EXHAUSTED ↔
      max_retries ≤ (detect_with_retry page max_retries).retry_count) :=
  detect_loop_exhausted_iff page max_retries (max_retries + 1) 0 none
    (fun _ h => nomatch h)

/-- Loop invariant: the retry loop never produces `MULTIPLE_CONFLICTS`. -/
theorem detect_loop_never_mc (page : Nat → PageRead) (max_retries : Nat) :
    ∀ (fuel attempt : Nat) (best : Option BarcodeDetectionResult),
      (∀ b, best = some b →
        b.detection_status ≠ BarcodeDetectionStatus.MULTIPLE_CONFLICTS) →
      (detect_loop page max_retries fuel attempt best).detection_status ≠
        BarcodeDetectionStatus.MULTIPLE_CONFLICTS := by
  intro fuel
  induction fuel with
  | zero =>
    intro attempt best hbest
    rw [detect_loop]
    apply finalize_result_ne_mc
    rcases better_or_keep_cases default best with h | ⟨b, hb, h⟩
    · rw [h]
      decide
    · rw [h]
      exact hbest b hb
  | succ fuel ih =>
    intro attempt best hbest
    rw [detect_loop]
    simp only []
    split_ifs with h1 h2 h3
    · exact (detect_image_status_cases (page attempt)).1
    · apply finalize_result_ne_mc
      rcases better_or_keep_cases
          { detect_barcodes_from_image (page attempt) with retry_count := attempt } best with
        h | ⟨b, hb, h⟩
      · rw [h]
        exact (detect_image_status_cases (page attempt)).1
      · rw [h]
        exact hbest b hb
    · refine ih (attempt + 1) _ ?_
      intro b hb
      rcases better_or_keep_cases
          { detect_barcodes_from_image (page attempt) with retry_count := attempt } best with
        h | ⟨b', hb', h⟩
      · rw [h] at hb
        cases hb
        exact (detect_image_status_cases (page attempt)).1
      · rw [h] at hb
        obtain rfl := Option.some_injective _ hb
        exact hbest b' hb'
    · apply finalize_result_ne_mc
      rcases better_or_keep_cases
          { detect_barcodes_from_image (page attempt) with retry_count := attempt } best with
        h | ⟨b, hb, h⟩
      · rw [h]
        exact (detect_image_status_cases (page attempt)).1
      · rw [h]
        exact hbest b hb

/-- Claim C10: no result produced by the detection engine — through the retry
loop, best-result tracking, the `RETRY_EXHAUSTED` override and both per-page
exception paths — ever carries status `MULTIPLE_CONFLICTS`; when several
candidate strings of one kind decode, the populated field is the first
candidate in decode order. -/
theorem no_multiple_conflicts (pages : List PageInput) (max_retries : Nat) :
    (∀ pr ∈ extract_barcodes_from_pdf pages max_retries,
      pr.2.detection_status ≠ BarcodeDetectionStatus.MULTIPLE_CONFLICTS) ∧
    (∀ d : DecoderOutput,
      (detect_barcodes_from_image (.ok d)).delivery_number =
        d.texts.find? (fun t => !py_is_blank t && is_delivery_number t) ∧
      (detect_barcodes_from_image (.ok d)).customer_name =
        d.texts.find? (fun t => !py_is_blank t && !is_delivery_number t)) := by
  constructor
  · intro pr hpr
    unfold extract_barcodes_from_pdf at hpr
    obtain ⟨⟨i, x⟩, -, rfl⟩ := List.mem_map.mp hpr
    cases x with
    | page f =>
      show (if (detect_with_retry f max_retries).has_any_barcode then
          detect_with_retry f max_retries
        else _ : BarcodeDetectionResult).detection_status ≠ _
      split_ifs with hany
      · exact detect_loop_never_mc f max_retries (max_retries + 1) 0 none
          (fun _ h => nomatch h)
      · intro hcon
        cases hcon
    | pageError e =>
      intro hcon
      cases hcon
  · intro d
    rw [(detect_image_fields d).1, (detect_image_fields d).2,
      filter_head?_eq_find?, filter_head?_eq_find?]
    exact ⟨rfl, rfl⟩

/-- A bucket key: the `(delivery_number, customer_name)` pair. -/
abbrev BarcodeKey := PyStr × PyStr

/-- A bucket mapping, as a Python dict in insertion order. -/
abbrev Buckets := List (BarcodeKey × List Nat)

/-- Python `result.delivery_number or 'UNKNOWN'`: falsy values (`None` or the
empty string) become the sentinel. -/
def or_unknown : Option PyStr → PyStr
  | none => UNKNOWN
  | some s => if s.isEmpty then UNKNOWN else s

/-- The bucket key built for a result inside `group_pages_by_barcode`. -/
def barcode_key_of (r : BarcodeDetectionResult) : BarcodeKey :=
  (or_unknown r.delivery_number, or_unknown r.customer_name)

/-- Appending through `defaultdict(list)`: extend the list of an existing key, or add the
key at the end (first-insertion order). -/
def bucketInsert : Buckets → BarcodeKey → Nat → Buckets
  | [], k, p => [(k, [p])]
  | (k', ps) :: rest, k, p =>
    if k' = k then (k', ps ++ [p]) :: rest
    else (k', ps) :: bucketInsert rest k p

/-- One iteration of the page loop in `group_pages_by_barcode`. -/
def group_step (acc : Buckets × List (Nat × BarcodeDetectionResult))
    (pr : Nat × BarcodeDetectionResult) :
    Buckets × List (Nat × BarcodeDetectionResult) :=
  if pr.2.has_any_barcode then
    (bucketInsert acc.1 (barcode_key_of pr.2) pr.1, acc.2)
  else (acc.1, acc.2 ++ [pr])

/-- Method `BarcodeDetector.group_pages_by_barcode`: pages with any barcode go into
the bucket keyed by their (possibly `UNKNOWN`-completed) barcode pair; all
other pages are collected, with their full result, as orphans. -/
def group_pages_by_barcode (page_barcodes : List (Nat × BarcodeDetectionResult)) :
    Buckets × List (Nat × BarcodeDetectionResult) :=
  page_barcodes.foldl group_step ([], [])

/-- All page indices stored in a bucket mapping. -/
def bucketPages (bs : Buckets) : List Nat := (bs.map Prod.snd).join

theorem bucketPages_nil : bucketPages [] = [] := rfl

theorem bucketPages_cons (k : BarcodeKey) (ps : List Nat) (rest : Buckets) :
    bucketPages ((k, ps) :: rest) = ps ++ bucketPages rest := rfl

theorem bucketPages_bucketInsert_count (bs : Buckets) (k : BarcodeKey) (p q : Nat) :
    (bucketPages (bucketInsert bs k p)).count q =
      (bucketPages bs).count q + if q = p then 1 else 0 := by
  have hc : List.count q [p] = if q = p then 1 else 0 := by
    by_cases hq : q = p
    · subst hq
      simp
    · rw [if_neg hq, List.count_eq_zero]
      simp [hq]
  induction bs with
  | nil =>
    simp [bucketInsert, bucketPages, hc]
  | cons kps rest ih =>
    obtain ⟨k', ps⟩ := kps
    by_cases h : k' = k
    · subst h
      rw [show bucketInsert ((k', ps) :: rest) k' p = (k', ps ++ [p]) :: rest from by
            simp [bucketInsert],
        bucketPages_cons, bucketPages_cons, List.count_append, List.count_append,
        List.count_append, hc]
      omega
    · rw [show bucketInsert ((k', ps) :: rest) k p = (k', ps) :: bucketInsert rest k p from by
            simp [bucketInsert, h],
        bucketPages_cons, bucketPages_cons, List.count_append, List.count_append, ih]
      omega

theorem group_fold_count (l : List (Nat × BarcodeDetectionResult))
    (acc : Buckets × List (Nat × BarcodeDetectionResult)) (q : Nat) :
    (bucketPages (l.foldl group_step acc).1).count q +
      ((l.foldl group_step acc).2.map Prod.fst).count q =
    (bucketPages acc.1).count q + (acc.2.map Prod.fst).count q +
      (l.map Prod.fst).count q := by
  induction l generalizing acc with
  | nil => simp
  | cons pr l ih =>
    rw [List.foldl_cons, ih]
    unfold group_step
    split_ifs with hb
    · rw [bucketPages_bucketInsert_count]
      simp only [List.map_cons, List.count_cons]
      by_cases hq : q = pr.1
      · subst hq
        simp <;> omega
      · simp [hq, Ne.symm hq] <;> omega
    · simp only [List.map_append, List.count_append, List.map_cons, List.map_nil,
        List.count_cons, List.count_nil]
      by_cases hq : q = pr.1
      · subst hq
        simp <;> omega
      · simp [hq, Ne.symm hq] <;> omega

theorem bucketInsert_mem_self (bs : Buckets) (k : BarcodeKey) (p : Nat) :
    ∃ ps, (k, ps) ∈ bucketInsert bs k p ∧ p ∈ ps := by
  induction bs with
  | nil => exact ⟨[p], by simp [bucketInsert]⟩
  | cons kps rest ih =>
    obtain ⟨k', ps⟩ := kps
    by_cases h : k' = k
    · subst h
      refine ⟨ps ++ [p], ?_, by simp⟩
      simp [bucketInsert]
    · obtain ⟨ps', h1, h2⟩ := ih
      exact ⟨ps', by simp [bucketInsert, h, h1], h2⟩

theorem bucketInsert_mem_mono (bs : Buckets) (k' : BarcodeKey) (q : Nat)
    {k : BarcodeKey} {p : Nat} (h : ∃ ps, (k, ps) ∈ bs ∧ p ∈ ps) :
    ∃ ps, (k, ps) ∈ bucketInsert bs k' q ∧ p ∈ ps := by
  induction bs with
  | nil =>
    obtain ⟨ps, hmem, -⟩ := h
    simp at hmem
  | cons kps rest ih =>
    obtain ⟨k0, ps0⟩ := kps
    obtain ⟨ps, hmem, hp⟩ := h
    rcases List.mem_cons.mp hmem with heq | htail
    · obtain ⟨h1, h2⟩ := Prod.mk.injEq .. ▸ heq
      subst h1
      subst h2
      by_cases h0 : k = k'
      · subst h0
        exact ⟨ps ++ [q], by simp [bucketInsert], List.mem_append_left _ hp⟩
      · exact ⟨ps, by simp [bucketInsert, h0], hp⟩
    · by_cases h0 : k0 = k'
      · subst h0
        exact ⟨ps, by simp [bucketInsert, List.mem_cons_of_mem _ htail], hp⟩
      · obtain ⟨ps', h1, h2⟩ := ih ⟨ps, htail, hp⟩
        exact ⟨ps', by simp [bucketInsert, h0, h1], h2⟩

theorem group_fold_bucket_mono (l : List (Nat × BarcodeDetectionResult))
    (acc : Buckets × List (Nat × BarcodeDetectionResult)) {k : BarcodeKey} {p : Nat}
    (h : ∃ ps, (k, ps) ∈ acc.1 ∧ p ∈ ps) :
    ∃ ps, (k, ps) ∈ (l.foldl group_step acc).1 ∧ p ∈ ps := by
  induction l generalizing acc with
  | nil => exact h
  | cons pr l ih =>
    rw [List.foldl_cons]
    apply ih
    unfold group_step
    split_ifs with hb
    · exact bucketInsert_mem_mono _ _ _ h
    · exact h

theorem group_fold_orphan_mono (l : List (Nat × BarcodeDetectionResult))
    (acc : Buckets × List (Nat × BarcodeDetectionResult))
    {x : Nat × BarcodeDetectionResult} (h : x ∈ acc.2) :
    x ∈ (l.foldl group_step acc).2 := by
  induction l generalizing acc with
  | nil => exact h
  | cons pr l ih =>
    rw [List.foldl_cons]
    apply ih
    unfold group_step
    split_ifs with hb
    · exact h
    · exact List.mem_append_left _ h

theorem group_fold_orphan_src (l : List (Nat × BarcodeDetectionResult))
    (acc : Buckets × List (Nat × BarcodeDetectionResult))
    {x : Nat × BarcodeDetectionResult} (h : x ∈ (l.foldl group_step acc).2) :
    x ∈ acc.2 ∨ (x ∈ l ∧ x.2.has_any_barcode = false) := by
  induction l generalizing acc with
  | nil => exact Or.inl h
  | cons pr l ih =>
    rw [List.foldl_cons] at h
    rcases ih _ h with h' | h'
    · unfold group_step at h'
      split_ifs at h' with hb
      · exact Or.inl h'
      · rcases List.mem_append.mp h' with h'' | h''
        · exact Or.inl h''
        · rw [List.mem_singleton] at h''
          subst h''
          exact Or.inr ⟨List.mem_cons_self _ _, by simpa using hb⟩
    · exact Or.inr ⟨List.mem_cons_of_mem _ h'.1, h'.2⟩

theorem group_fold_mem_bucket (l : List (Nat × BarcodeDetectionResult))
    (acc : Buckets × List (Nat × BarcodeDetectionResult))
    {p : Nat} {r : BarcodeDetectionResult}
    (hmem : (p, r) ∈ l) (hb : r.has_any_barcode = true) :
    ∃ ps, (barcode_key_of r, ps) ∈ (l.foldl group_step acc).1 ∧ p ∈ ps := by
  induction l generalizing acc with
  | nil => simp at hmem
  | cons pr l ih =>
    rw [List.foldl_cons]
    rcases List.mem_cons.mp hmem with heq | htail
    · subst heq
      apply group_fold_bucket_mono
      unfold group_step
      rw [if_pos hb]
      exact bucketInsert_mem_self _ _ _
    · exact ih _ htail

theorem group_fold_mem_orphan (l : List (Nat × BarcodeDetectionResult))
    (acc : Buckets × List (Nat × BarcodeDetectionResult))
    {p : Nat} {r : BarcodeDetectionResult}
    (hmem : (p, r) ∈ l) (hb : r.has_any_barcode = false) :
    (p, r) ∈ (l.foldl group_step acc).2 := by
  induction l generalizing acc with
  | nil => simp at hmem
  | cons pr l ih =>
    rw [List.foldl_cons]
    rcases List.mem_cons.mp hmem with heq | htail
    · subst heq
      apply group_fold_orphan_mono
      unfold group_step
      rw [if_neg (by simp [hb])]
      exact List.mem_append_right _ (List.mem_singleton_self _)
    · exact ih _ htail

/-- Claim C5: for every page→result mapping (distinct page indices), grouping
partitions the pages — each input page index occurs exactly once across all
bucket lists and the orphan map together, and no other index occurs; a page
joins the bucket keyed by its `UNKNOWN`-completed barcode pair iff its result
has any barcode, and all other pages become orphans retaining their full
result. -/
theorem grouping_partitions_pages (pbs : List (Nat × BarcodeDetectionResult))
    (hnd : (pbs.map Prod.fst).Nodup) :
    (∀ p : Nat, p ∈ pbs.map Prod.fst →
      (bucketPages (group_pages_by_barcode pbs).1).count p +
        ((group_pages_by_barcode pbs).2.map Prod.fst).count p = 1) ∧
    (∀ p : Nat, p ∉ pbs.map Prod.fst →
      (bucketPages (group_pages_by_barcode pbs).1).count p +
        ((group_pages_by_barcode pbs).2.map Prod.fst).count p = 0) ∧
    (∀ p r, (p, r) ∈ pbs → r.has_any_barcode = true →
      ∃ ps, (barcode_key_of r, ps) ∈ (group_pages_by_barcode pbs).1 ∧ p ∈ ps) ∧
    (∀ p r, (p, r) ∈ pbs → r.has_any_barcode = false →
      (p, r) ∈ (group_pages_by_barcode pbs).2) ∧
    (∀ p r, (p, r) ∈ (group_pages_by_barcode pbs).2 →
      (p, r) ∈ pbs ∧ r.has_any_barcode = false) := by
  refine ⟨?_, ?_, ?_, ?_, ?_⟩
  · intro p hp
    calc (bucketPages (group_pages_by_barcode pbs).1).count p +
          ((group_pages_by_barcode pbs).2.map Prod.fst).count p
        = (pbs.map Prod.fst).count p := by
          have h := group_fold_count pbs ([], []) p
          rw [group_pages_by_barcode]
          simpa [bucketPages_nil] using h
      _ = 1 := List.count_eq_one_of_mem hnd hp
  · intro p hp
    calc (bucketPages (group_pages_by_barcode pbs).1).count p +
          ((group_pages_by_barcode pbs).2.map Prod.fst).count p
        = (pbs.map Prod.fst).count p := by
          have h := group_fold_count pbs ([], []) p
          rw [group_pages_by_barcode]
          simpa [bucketPages_nil] using h
      _ = 0 := List.count_eq_zero.mpr hp
  · intro p r hmem hb
    exact group_fold_mem_bucket pbs ([], []) hmem hb
  · intro p r hmem hb
    exact group_fold_mem_orphan pbs ([], []) hmem hb
  · intro p r hmem
    have := group_fold_orphan_src pbs ([], []) hmem
    simpa using this

/-- Claim C5 witness: a two-page mapping (one page with a delivery barcode,
one empty page); page 0 is counted exactly once across buckets and orphans. -/
theorem grouping_partitions_pages_witness :
    (bucketPages (group_pages_by_barcode
        [(0, { delivery_number := some ['D', 'O', '1'] }), (1, {})]).1).count 0 +
      ((group_pages_by_barcode
        [(0, { delivery_number := some ['D', 'O', '1'] }), (1, {})]).2.map
          Prod.fst).count 0 = 1 :=
  (grouping_partitions_pages
    [(0, { delivery_number := some ['D', 'O', '1'] }), (1, {})] (by decide)).1 0
    (by decide)

/-- Windows-reserved characters replaced by `_` in `_create_safe_filename`. -/
def invalid_chars : List Char := ['<', '>', ':', '"', '/', '\\', '|', '?', '*']

/-- Character-wise sanitization of one filename field. -/
def sanitize_field (s : PyStr) : PyStr :=
  s.map fun c => if invalid_chars.contains c then '_' else c

/-- Method `PDFProcessor._create_safe_filename`. -/
def create_safe_filename (delivery_number customer_name : PyStr) : PyStr :=
  let safe_delivery := sanitize_field delivery_number
  let safe_customer := sanitize_field customer_name
  if delivery_number ≠ UNKNOWN ∧ customer_name ≠ UNKNOWN then
    safe_customer ++ ['_'] ++ safe_delivery ++ ".pdf".data
  else if delivery_number ≠ UNKNOWN then safe_delivery ++ ".pdf".data
  else if customer_name ≠ UNKNOWN then safe_customer ++ ".pdf".data
  else "unknown_barcode.pdf".data

/-- One iteration of the loop in `_filter_valid_barcodes`. -/
def filter_step (acc : Buckets × List Nat) (kp : BarcodeKey × List Nat) :
    Buckets × List Nat :=
  if kp.1.1 = UNKNOWN ∨ kp.1.2 = UNKNOWN then (acc.1, acc.2 ++ kp.2)
  else (acc.1 ++ [kp], acc.2)

/-- Method `PDFProcessor._filter_valid_barcodes`: drop every bucket whose key has an
`UNKNOWN` component, consigning its pages to the invalid list.  (The Python
code also tests for `None`, which cannot occur: grouping always substitutes
the sentinel into keys.) -/
def filter_valid_barcodes (barcode_pages : Buckets) : Buckets × List Nat :=
  barcode_pages.foldl filter_step ([], [])

/-- The bucket-search loop of `_assign_to_previous_barcode`: the first bucket
in dict order whose page list contains the page. -/
def findBucket : Buckets → Nat → Option BarcodeKey
  | [], _ => none
  | (k, ps) :: rest, p => if ps.contains p then some k else findBucket rest p

/-- The mutation `barcode_pages[key].append(page_num)` on an existing key. -/
def appendToBucket : Buckets → BarcodeKey → Nat → Buckets
  | [], _, _ => []
  | (k', ps) :: rest, k, p =>
    if k' = k then (k', ps ++ [p]) :: rest
    else (k', ps) :: appendToBucket rest k p

/-- One page of the scan in `_assign_to_previous_barcode`; the state is the
pair (previous barcode key, current buckets). -/
def assign_previous_step (no_barcode_pages : List Nat)
    (st : Option BarcodeKey × Buckets) (page_num : Nat) :
    Option BarcodeKey × Buckets :=
  match findBucket st.2 page_num with
  | some k => (some k, st.2)
  | none =>
    match st.1 with
    | some prev =>
      if no_barcode_pages.contains page_num then
        (some prev, appendToBucket st.2 prev page_num)
      else st
    | none => st

/-- Method `PDFProcessor._assign_to_previous_barcode` (KeepWithPrevious policy). -/
def assign_to_previous_barcode (barcode_pages : Buckets)
    (no_barcode_pages : List Nat) (total_pages : Nat) : Buckets :=
  ((List.range total_pages).foldl (assign_previous_step no_barcode_pages)
    (none, barcode_pages)).2

/-- The precomputed `page_to_barcode` reverse index of both sequential
policies (when a page occurred in several buckets the last bucket wins, as in
the Python dict build). -/
def page_to_barcode (bs : Buckets) (p : Nat) : Option BarcodeKey :=
  bs.foldl (fun acc kps => if kps.2.contains p then some kps.1 else acc) none

/-- One page of the scan in `_assign_sequentially`. -/
def assign_sequential_step (no_barcode_pages : List Nat)
    (p2b : Nat → Option BarcodeKey) (st : Option BarcodeKey × Buckets)
    (page_num : Nat) : Option BarcodeKey × Buckets :=
  match p2b page_num with
  | some k => (some k, st.2)
  | none =>
    match st.1 with
    | some cur =>
      if no_barcode_pages.contains page_num then
        (some cur, appendToBucket st.2 cur page_num)
      else st
    | none => st

/-- Method `PDFProcessor._assign_sequentially` (the superseded generation of the
Sequential policy, taking the orphan pages as a bare list of indices). -/
def assign_sequentially (barcode_pages : Buckets) (no_barcode_pages : List Nat)
    (total_pages : Nat) : Buckets :=
  ((List.range total_pages).foldl
    (assign_sequential_step no_barcode_pages (page_to_barcode barcode_pages))
    (none, barcode_pages)).2

/-- One page of the scan in `_assign_sequentially_enhanced`.  On a page found
in `page_to_barcode` the source sets the current group (pdf_processor.py
line 374) and then calls `vh.debug` (line 375), which raises
`AttributeError` and aborts the scan — the freshly set group is never used,
so the step returns an error without a state.  On an orphan page with an
established current group the source appends the page first and the
status-dispatched logging then also raises through `vh.debug` for a
`NO_PATTERNS_FOUND` orphan (line 390) — that case is modelled although it is
unreachable, a current group requiring an earlier bucketed page that would
already have aborted the scan.  An error value carries the buckets as
mutated so far: the dict is mutated in place, so that is what the caller
observes after catching the exception. -/
def assign_sequential_enhanced_step
    (no_barcode_pages : List (Nat × BarcodeDetectionResult))
    (p2b : Nat → Option BarcodeKey) (st : Option BarcodeKey × Buckets)
    (page_num : Nat) :
    Except (PyStr × Buckets) (Option BarcodeKey × Buckets) :=
  match p2b page_num with
  | some _ => .error (debug_attribute_error, st.2)
  | none =>
    match no_barcode_pages.find? (fun pr => pr.1 == page_num) with
    | some pr =>
      match st.1 with
      | some cur =>
        let appended := appendToBucket st.2 cur page_num
        if pr.2.detection_status = BarcodeDetectionStatus.NO_PATTERNS_FOUND then
          .error (debug_attribute_error, appended)
        else .ok (st.1, appended)
      | none => .ok st
    | none => .ok st

/-- The `for page_num in range(total_pages)` scan of
`_assign_sequentially_enhanced`, stopping at the first raising step. -/
def assign_sequential_enhanced_scan
    (no_barcode_pages : List (Nat × BarcodeDetectionResult))
    (p2b : Nat → Option BarcodeKey) :
    List Nat → Option BarcodeKey × Buckets →
      Except (PyStr × Buckets) (Option BarcodeKey × Buckets)
  | [], st => .ok st
  | p :: l, st =>
    match assign_sequential_enhanced_step no_barcode_pages p2b st p with
    | .ok st' => assign_sequential_enhanced_scan no_barcode_pages p2b l st'
    | .error eb => .error eb

/-- Method `PDFProcessor._assign_sequentially_enhanced` (the live Sequential
policy).  The result is the bucket mapping the caller observes, paired with
the text of the raised exception when one occurred:
`handle_pages_without_barcodes` wraps the call in try/except, so on an
`AttributeError` it logs the error and keeps the mapping as mutated so
far. -/
def assign_sequentially_enhanced (barcode_pages : Buckets)
    (no_barcode_pages : List (Nat × BarcodeDetectionResult))
    (total_pages : Nat) : Buckets × Option PyStr :=
  match assign_sequential_enhanced_scan no_barcode_pages
      (page_to_barcode barcode_pages) (List.range total_pages)
      (none, barcode_pages) with
  | .ok st => (st.2, none)
  | .error eb => (eb.2, some eb.1)

/-- Started with no current group, the enhanced scan never changes the
buckets: a bucketed page raises before the current group is set (so the
orphan-append branch is unreachable), and without a current group orphan
pages are skipped; the scan raises exactly when it meets a bucketed page. -/
theorem assign_sequential_enhanced_scan_spec
    (no_barcode_pages : List (Nat × BarcodeDetectionResult))
    (p2b : Nat → Option BarcodeKey) (bs : Buckets) :
    ∀ l : List Nat,
      (match assign_sequential_enhanced_scan no_barcode_pages p2b l (none, bs) with
       | .ok st => st = (none, bs) ∧ ∀ q ∈ l, p2b q = none
       | .error eb => eb = (debug_attribute_error, bs) ∧ ∃ q ∈ l, p2b q ≠ none) := by
  intro l
  induction l with
  | nil =>
    constructor
    · rfl
    · intro q hq
      simp at hq
  | cons p l ih =>
    cases hp : p2b p with
    | some k =>
      have hstep : assign_sequential_enhanced_step no_barcode_pages p2b (none, bs) p =
          .error (debug_attribute_error, bs) := by
        unfold assign_sequential_enhanced_step
        rw [hp]
      simp only [assign_sequential_enhanced_scan, hstep]
      refine ⟨trivial, p, List.mem_cons_self _ _, ?_⟩
      simp [hp]
    | none =>
      have hstep : assign_sequential_enhanced_step no_barcode_pages p2b (none, bs) p =
          .ok (none, bs) := by
        unfold assign_sequential_enhanced_step
        rw [hp]
        cases no_barcode_pages.find? (fun pr => pr.1 == p) with
        | some pr => rfl
        | none => rfl
      simp only [assign_sequential_enhanced_scan, hstep]
      revert ih
      cases hsc : assign_sequential_enhanced_scan no_barcode_pages p2b l (none, bs) with
      | ok st =>
        intro ih
        refine ⟨ih.1, ?_⟩
        intro q hq
        rcases List.mem_cons.mp hq with rfl | hq'
        · exact hp
        · exact ih.2 q hq'
      | error eb =>
        intro ih
        refine ⟨ih.1, ?_⟩
        obtain ⟨q, hq, hqn⟩ := ih.2
        exact ⟨q, List.mem_cons_of_mem _ hq, hqn⟩

/-- The buckets observed by the caller of `_assign_sequentially_enhanced` are
always exactly the input buckets. -/
theorem assign_sequentially_enhanced_unchanged (barcode_pages : Buckets)
    (no_barcode_pages : List (Nat × BarcodeDetectionResult)) (total_pages : Nat) :
    (assign_sequentially_enhanced barcode_pages no_barcode_pages total_pages).1 =
      barcode_pages := by
  unfold assign_sequentially_enhanced
  have h := assign_sequential_enhanced_scan_spec no_barcode_pages
    (page_to_barcode barcode_pages) barcode_pages (List.range total_pages)
  revert h
  cases assign_sequential_enhanced_scan no_barcode_pages
      (page_to_barcode barcode_pages) (List.range total_pages)
      (none, barcode_pages) with
  | ok st =>
    intro h
    rw [h.1]
  | error eb =>
    intro h
    rw [h.1]

/-- Claim C9 counterexample: with bucket A holding page 0 and page 1 an
orphan, the superseded `_assign_sequentially` appends page 1 to bucket A,
while `_assign_sequentially_enhanced` raises `AttributeError` at page 0
(`vh.debug` is undefined) and leaves the mapping unchanged — the two
generations do not return identical bucket mappings. -/
theorem sequential_generations_differ :
    assign_sequentially [((['A'], ['B']), [0])] [1] 2 =
      [((['A'], ['B']), [0, 1])] ∧
    assign_sequentially_enhanced [((['A'], ['B']), [0])] [(1, {})] 2 =
      ([((['A'], ['B']), [0])], some debug_attribute_error) ∧
    assign_sequentially [((['A'], ['B']), [0])] [1] 2 ≠
      (assign_sequentially_enhanced [((['A'], ['B']), [0])] [(1, {})] 2).1 := by
  decide

/-- Claim C9 (amended): the two generations of the sequential policy are NOT
behaviorally equivalent.  `_assign_sequentially_enhanced` never alters the
bucket mapping: it aborts with `AttributeError` (undefined `vh.debug`)
exactly when some bucketed page lies in the scanned range — that is, in every
situation where sequential assignment could occur — and otherwise completes
without appending anything.  `_assign_sequentially`, which logs through
`vh.info` only, performs the assignments. -/
theorem enhanced_sequential_never_assigns (barcode_pages : Buckets)
    (no_barcode_pages : List (Nat × BarcodeDetectionResult)) (total_pages : Nat) :
    (assign_sequentially_enhanced barcode_pages no_barcode_pages total_pages).1 =
      barcode_pages ∧
    ((assign_sequentially_enhanced barcode_pages no_barcode_pages total_pages).2 =
        some debug_attribute_error ↔
      ∃ q ∈ List.range total_pages, page_to_barcode barcode_pages q ≠ none) := by
  refine ⟨assign_sequentially_enhanced_unchanged _ _ _, ?_⟩
  unfold assign_sequentially_enhanced
  have h := assign_sequential_enhanced_scan_spec no_barcode_pages
    (page_to_barcode barcode_pages) barcode_pages (List.range total_pages)
  revert h
  cases assign_sequential_enhanced_scan no_barcode_pages
      (page_to_barcode barcode_pages) (List.range total_pages)
      (none, barcode_pages) with
  | ok st =>
    intro h
    refine iff_of_false (by simp) ?_
    rintro ⟨q, hq, hqn⟩
    exact hqn (h.2 q hq)
  | error eb =>
    intro h
    refine iff_of_true ?_ h.2
    rw [h.1]

/-- The frame relation of Claim C6: the new mapping has the same keys in the
same order, the new list of every bucket extends its old list, and every added
page index comes from the orphan set. -/
def ExtendsOnlyBy (old new : Buckets) (orphans : List Nat) : Prop :=
  List.Forall₂
    (fun a b => a.1 = b.1 ∧ ∃ extra, b.2 = a.2 ++ extra ∧ ∀ p ∈ extra, p ∈ orphans)
    old new

theorem extendsOnlyBy_refl (bs : Buckets) (orphans : List Nat) :
    ExtendsOnlyBy bs bs orphans := by
  induction bs with
  | nil => exact List.Forall₂.nil
  | cons kps rest ih =>
    exact List.Forall₂.cons ⟨rfl, [], by simp, by simp⟩ ih

theorem extendsOnlyBy_append (old cur : Buckets) (orphans : List Nat)
    (h : ExtendsOnlyBy old cur orphans) (k : BarcodeKey) {p : Nat}
    (hp : p ∈ orphans) :
    ExtendsOnlyBy old (appendToBucket cur k p) orphans := by
  induction h with
  | nil => exact List.Forall₂.nil
  | @cons a b l1 l2 hab htail ih =>
    obtain ⟨kb, psb⟩ := b
    by_cases hk : kb = k
    · subst hk
      rw [show appendToBucket ((kb, psb) :: l2) kb p = (kb, psb ++ [p]) :: l2 from by
            simp [appendToBucket]]
      refine List.Forall₂.cons ⟨hab.1, ?_⟩ htail
      obtain ⟨extra, he, hor⟩ := hab.2
      refine ⟨extra ++ [p], ?_, ?_⟩
      · have he' : psb = a.2 ++ extra := he
        rw [he', List.append_assoc]
      · intro q hq
        rcases List.mem_append.mp hq with h1 | h1
        · exact hor q h1
        · rw [List.mem_singleton] at h1
          subst h1
          exact hp
    · rw [show appendToBucket ((kb, psb) :: l2) k p =
            (kb, psb) :: appendToBucket l2 k p from by simp [appendToBucket, hk]]
      exact List.Forall₂.cons hab ih

theorem assign_previous_fold_extends (no_barcode_pages : List Nat)
    (l : List Nat) (orig : Buckets) :
    ∀ st : Option BarcodeKey × Buckets,
      ExtendsOnlyBy orig st.2 no_barcode_pages →
      ExtendsOnlyBy orig
        ((l.foldl (assign_previous_step no_barcode_pages) st)).2 no_barcode_pages := by
  induction l with
  | nil => exact fun st h => h
  | cons p l ih =>
    intro st h
    rw [List.foldl_cons]
    apply ih
    unfold assign_previous_step
    cases findBucket st.2 p with
    | some k => exact h
    | none =>
      cases st.1 with
      | some prev =>
        by_cases hc : no_barcode_pages.contains p = true
        · simp only [hc, if_true]
          exact extendsOnlyBy_append _ _ _ h prev (by simpa using hc)
        · simp only [hc, if_false]
          exact h
      | none => exact h

/-- Claim C6: the KeepWithPrevious and Sequential policies only extend
buckets: every bucket keeps its key and all its original pages (so the
assignment of every non-orphan page is untouched and no bucket loses a page),
and every page a bucket gains is an orphan index.  For KeepWithPrevious this
is proved over the real append scan; for Sequential the observed mapping is
in fact the unmodified input (the scan aborts on `AttributeError` before any
append, see `assign_sequentially_enhanced_unchanged`), which satisfies the
frame property a fortiori. -/
theorem policies_only_extend_buckets (barcode_pages : Buckets)
    (no_barcode_list : List Nat)
    (no_barcode_map : List (Nat × BarcodeDetectionResult)) (total_pages : Nat) :
    ExtendsOnlyBy barcode_pages
      (assign_to_previous_barcode barcode_pages no_barcode_list total_pages)
      no_barcode_list ∧
    ExtendsOnlyBy barcode_pages
      (assign_sequentially_enhanced barcode_pages no_barcode_map total_pages).1
      (no_barcode_map.map Prod.fst) := by
  constructor
  · exact assign_previous_fold_extends no_barcode_list (List.range total_pages)
      barcode_pages (none, barcode_pages)
      (extendsOnlyBy_refl barcode_pages no_barcode_list)
  · rw [assign_sequentially_enhanced_unchanged]
    exact extendsOnlyBy_refl barcode_pages (no_barcode_map.map Prod.fst)

theorem mem_bucketPages {q : Nat} {bs : Buckets} :
    q ∈ bucketPages bs ↔ ∃ kps ∈ bs, q ∈ kps.2 := by
  simp only [bucketPages, List.mem_join, List.mem_map]
  constructor
  · rintro ⟨l, ⟨kps, hk, rfl⟩, hq⟩
    exact ⟨kps, hk, hq⟩
  · rintro ⟨kps, hk, hq⟩
    exact ⟨kps.2, ⟨kps, hk, rfl⟩, hq⟩

theorem findBucket_eq_none {bs : Buckets} {q : Nat}
    (h : ∀ kps ∈ bs, q ∉ kps.2) : findBucket bs q = none := by
  induction bs with
  | nil => rfl
  | cons kps rest ih =>
    obtain ⟨k, ps⟩ := kps
    rw [findBucket, if_neg]
    · exact ih fun x hx => h x (List.mem_cons_of_mem _ hx)
    · simpa using h (k, ps) (List.mem_cons_self _ _)

theorem page_to_barcode_eq_none {bs : Buckets} {q : Nat}
    (h : ∀ kps ∈ bs, q ∉ kps.2) : page_to_barcode bs q = none := by
  unfold page_to_barcode
  suffices hgen : ∀ acc : Option BarcodeKey,
      bs.foldl (fun acc kps => if kps.2.contains q then some kps.1 else acc) acc = acc by
    exact hgen none
  induction bs with
  | nil => intro acc; rfl
  | cons kps rest ih =>
    intro acc
    rw [List.foldl_cons, if_neg]
    · exact ih (fun x hx => h x (List.mem_cons_of_mem _ hx)) acc
    · simpa using h kps (List.mem_cons_self _ _)

theorem bucketPages_appendToBucket {bs : Buckets} {k : BarcodeKey} {p q : Nat}
    (h : q ∈ bucketPages (appendToBucket bs k p)) :
    q ∈ bucketPages bs ∨ q = p := by
  induction bs with
  | nil =>
    rw [show appendToBucket [] k p = [] from rfl] at h
    exact Or.inl h
  | cons kps rest ih =>
    obtain ⟨k', ps⟩ := kps
    by_cases hk : k' = k
    · subst hk
      rw [show appendToBucket ((k', ps) :: rest) k' p = (k', ps ++ [p]) :: rest from by
            simp [appendToBucket], bucketPages_cons] at h
      rcases List.mem_append.mp h with h1 | h1
      · rcases List.mem_append.mp h1 with h2 | h2
        · exact Or.inl (by rw [bucketPages_cons]; exact List.mem_append_left _ h2)
        · rw [List.mem_singleton] at h2
          exact Or.inr h2
      · exact Or.inl (by rw [bucketPages_cons]; exact List.mem_append_right _ h1)
    · rw [show appendToBucket ((k', ps) :: rest) k p =
            (k', ps) :: appendToBucket rest k p from by simp [appendToBucket, hk],
          bucketPages_cons] at h
      rcases List.mem_append.mp h with h1 | h1
      · exact Or.inl (by rw [bucketPages_cons]; exact List.mem_append_left _ h1)
      · rcases ih h1 with h2 | h2
        · exact Or.inl (by rw [bucketPages_cons]; exact List.mem_append_right _ h2)
        · exact Or.inr h2

theorem assign_previous_step_pages (no_barcode_pages : List Nat)
    (st : Option BarcodeKey × Buckets) (page q : Nat)
    (h : q ∈ bucketPages (assign_previous_step no_barcode_pages st page).2) :
    q ∈ bucketPages st.2 ∨ q = page := by
  unfold assign_previous_step at h
  split at h
  · exact Or.inl h
  · split at h
    · split at h
      · exact bucketPages_appendToBucket h
      · exact Or.inl h
    · exact Or.inl h

theorem assign_previous_fold_pages (no_barcode_pages : List Nat) (l : List Nat)
    (st : Option BarcodeKey × Buckets) (q : Nat)
    (h : q ∈ bucketPages ((l.foldl (assign_previous_step no_barcode_pages) st)).2) :
    q ∈ bucketPages st.2 ∨ q ∈ l := by
  induction l generalizing st with
  | nil => exact Or.inl h
  | cons p l ih =>
    rw [List.foldl_cons] at h
    rcases ih _ h with h1 | h1
    · rcases assign_previous_step_pages no_barcode_pages st p q h1 with h2 | h2
      · exact Or.inl h2
      · subst h2
        exact Or.inr (List.mem_cons_self _ _)
    · exact Or.inr (List.mem_cons_of_mem _ h1)

theorem assign_previous_fold_stays (no_barcode_pages : List Nat) (bs : Buckets)
    (l : List Nat) (h : ∀ q ∈ l, findBucket bs q = none) :
    l.foldl (assign_previous_step no_barcode_pages) (none, bs) = (none, bs) := by
  induction l with
  | nil => rfl
  | cons q l ih =>
    rw [List.foldl_cons,
      show assign_previous_step no_barcode_pages (none, bs) q = (none, bs) from by
        unfold assign_previous_step
        rw [h q (List.mem_cons_self _ _)]]
    exact ih fun x hx => h x (List.mem_cons_of_mem _ hx)

/-- Claim C8: under KeepWithPrevious and under Sequential, an orphan page
whose index precedes every page of every bucket (no current group can have
been established when the scan reaches it) is never assigned to any bucket,
hence excluded from every output file.  Under KeepWithPrevious the scan runs
with no previous group until past the orphan; under Sequential the leading
orphan is skipped with a warning (`vh.warning` exists) and the scan then
aborts on the first bucketed page, so the observed mapping never gains the
page. -/
theorem leading_orphans_never_assigned (barcode_pages : Buckets)
    (no_barcode_list : List Nat)
    (no_barcode_map : List (Nat × BarcodeDetectionResult))
    (total_pages p : Nat)
    (horph1 : p ∈ no_barcode_list)
    (horph2 : p ∈ no_barcode_map.map Prod.fst)
    (hlead : ∀ kps ∈ barcode_pages, ∀ q ∈ kps.2, p < q) :
    p ∉ bucketPages
      (assign_to_previous_barcode barcode_pages no_barcode_list total_pages) ∧
    p ∉ bucketPages
      (assign_sequentially_enhanced barcode_pages no_barcode_map total_pages).1 := by
  have hnotin : p ∉ bucketPages barcode_pages := by
    intro hmem
    obtain ⟨kps, hkps, hin⟩ := mem_bucketPages.mp hmem
    exact absurd (hlead kps hkps p hin) (by omega)
  have hsmall : ∀ q : Nat, q ≤ p → ∀ kps ∈ barcode_pages, q ∉ kps.2 := by
    intro q hq kps hkps hin
    have := hlead kps hkps q hin
    omega
  constructor
  · intro hmem
    unfold assign_to_previous_barcode at hmem
    by_cases hp : p < total_pages
    · have htot : total_pages = (p + 1) + (total_pages - (p + 1)) := by omega
      rw [htot, List.range_add, List.foldl_append,
        assign_previous_fold_stays _ _ _ ?hpre] at hmem
      case hpre =>
        intro q hq
        rw [List.mem_range] at hq
        exact findBucket_eq_none (hsmall q (by omega))
      rcases assign_previous_fold_pages _ _ _ _ hmem with h1 | h1
      · exact hnotin h1
      · rw [List.mem_map] at h1
        obtain ⟨x, -, hx⟩ := h1
        omega
    · rcases assign_previous_fold_pages _ _ _ _ hmem with h1 | h1
      · exact hnotin h1
      · rw [List.mem_range] at h1
        omega
  · rw [assign_sequentially_enhanced_unchanged]
    exact hnotin

/-- Claim C8 witness: page 0 an orphan, page 1 in bucket A — page 0 stays
unassigned under both policies. -/
theorem leading_orphans_never_assigned_witness :
    0 ∉ bucketPages (assign_to_previous_barcode [((['A'], ['B']), [1])] [0] 2) ∧
    0 ∉ bucketPages
      (assign_sequentially_enhanced [((['A'], ['B']), [1])] [(0, {})] 2).1 :=
  leading_orphans_never_assigned [((['A'], ['B']), [1])] [0] [(0, {})] 2 0
    (by decide) (by decide) (by decide)

theorem filter_fold_valid_src (l : List (BarcodeKey × List Nat))
    (acc : Buckets × List Nat) {kp : BarcodeKey × List Nat}
    (h : kp ∈ (l.foldl filter_step acc).1) :
    kp ∈ acc.1 ∨ (kp ∈ l ∧ ¬(kp.1.1 = UNKNOWN ∨ kp.1.2 = UNKNOWN)) := by
  induction l generalizing acc with
  | nil => exact Or.inl h
  | cons x l ih =>
    rw [List.foldl_cons] at h
    rcases ih _ h with h' | h'
    · unfold filter_step at h'
      split_ifs at h' with hb
      · exact Or.inl h'
      · rcases List.mem_append.mp h' with h1 | h1
        · exact Or.inl h1
        · rw [List.mem_singleton] at h1
          subst h1
          exact Or.inr ⟨List.mem_cons_self _ _, hb⟩
    · exact Or.inr ⟨List.mem_cons_of_mem _ h'.1, h'.2⟩

theorem filter_fold_invalid_mono (l : List (BarcodeKey × List Nat))
    (acc : Buckets × List Nat) {p : Nat} (h : p ∈ acc.2) :
    p ∈ (l.foldl filter_step acc).2 := by
  induction l generalizing acc with
  | nil => exact h
  | cons x l ih =>
    rw [List.foldl_cons]
    apply ih
    unfold filter_step
    split_ifs with hb
    · exact List.mem_append_left _ h
    · exact h

theorem filter_fold_invalid_mem (l : List (BarcodeKey × List Nat))
    (acc : Buckets × List Nat) {k : BarcodeKey} {pages : List Nat}
    (hmem : (k, pages) ∈ l) (hunk : k.1 = UNKNOWN ∨ k.2 = UNKNOWN) :
    ∀ p ∈ pages, p ∈ (l.foldl filter_step acc).2 := by
  induction l generalizing acc with
  | nil => simp at hmem
  | cons x l ih =>
    intro p hp
    rw [List.foldl_cons]
    rcases List.mem_cons.mp hmem with heq | htail
    · subst heq
      apply filter_fold_invalid_mono
      unfold filter_step
      rw [if_pos hunk]
      exact List.mem_append_right _ hp
    · exact ih _ htail p hp

def c2_bucket : Buckets := [((UNKNOWN, ['A', 'C', 'M', 'E']), [0])]

/-- Claim C2 counterexample: a bucket whose key has exactly one real component
(delivery `UNKNOWN`, customer `"ACME"`) is not retained through the pipeline —
`split_pdf_by_barcodes` runs `_filter_valid_barcodes` before any output
planning or orphan policy, and that filter removes the bucket entirely,
consigning its page to the discarded invalid list. -/
theorem unknown_bucket_discarded : filter_valid_barcodes c2_bucket = ([], [0]) := by
  decide

/-- Claim C2 (amended): a bucket key with an `UNKNOWN` component never
survives `_filter_valid_barcodes`: no bucket with that key remains in the
valid mapping, and all its pages are consigned to the invalid (discarded)
list, before any assignment policy runs — so output is never planned for such
a bucket.  The pure filename function does map half-known keys to
`"{delivery}.pdf"` / `"{customer}.pdf"` (after sanitization), but the
pipeline never reaches it for them. -/
theorem unknown_buckets_dropped (barcode_pages : Buckets) (k : BarcodeKey)
    (pages : List Nat) (hmem : (k, pages) ∈ barcode_pages)
    (hunk : k.1 = UNKNOWN ∨ k.2 = UNKNOWN) :
    (∀ ps, (k, ps) ∉ (filter_valid_barcodes barcode_pages).1) ∧
    (∀ p ∈ pages, p ∈ (filter_valid_barcodes barcode_pages).2) ∧
    (∀ d, d ≠ UNKNOWN →
      create_safe_filename d UNKNOWN = sanitize_field d ++ ".pdf".data) ∧
    (∀ c, c ≠ UNKNOWN →
      create_safe_filename UNKNOWN c = sanitize_field c ++ ".pdf".data) := by
  refine ⟨?_, ?_, ?_, ?_⟩
  · intro ps hps
    rcases filter_fold_valid_src barcode_pages ([], []) hps with h | h
    · simp at h
    · exact h.2 hunk
  · exact filter_fold_invalid_mem barcode_pages ([], []) hmem hunk
  · intro d hd
    rw [create_safe_filename, if_neg (by simp), if_pos hd]
  · intro c hc
    rw [create_safe_filename, if_neg (by simp), if_neg (by simp), if_pos hc]

/-- Claim C2 witness: page 0 of the half-known bucket lands in the discarded
invalid list. -/
theorem unknown_buckets_dropped_witness :
    0 ∈ (filter_valid_barcodes c2_bucket).2 :=
  (unknown_buckets_dropped c2_bucket (UNKNOWN, ['A', 'C', 'M', 'E']) [0]
    (by decide) (Or.inl rfl)).2.1 0 (by decide)

/-- Claim C1 witness: the concrete decoder output `[" ", "DO1"]`. -/
theorem blank_plus_valid_is_partial_success_witness :
    (detect_barcodes_from_image
      (.ok ⟨0, [[' '], ['D', 'O', '1']]⟩)).detection_status =
        BarcodeDetectionStatus.SUCCESS ∧
    (detect_barcodes_from_image (.ok ⟨0, [[' '], ['D', 'O', '1']]⟩)).error_details =
      some (corrupted_error_message
        (([[' '], ['D', 'O', '1']] : List PyStr).filter py_is_blank).length) ∧
    (detect_barcodes_from_image (.ok ⟨0, [[' '], ['D', 'O', '1']]⟩)).needs_retry =
      false :=
  blank_plus_valid_is_partial_success ⟨0, [[' '], ['D', 'O', '1']]⟩
    (by decide) (by decide)

end Barkus
